import Mathlib

/-!
Verification of the table-to-record extraction core of the
boun-course-info-scraper repository, shallowly embedded in Lean.

The embedding follows the operative implementation,
`CourseInfoScraper.extract_course_data` in `src/boun_course_info/scraper.py`
(the functions `extract_course_data`, `parse_days`, `parse_hours` and
`parse_rooms` in `src/boun_course_info/utils.py` are imported by scraper.py
but never called; where a claim cites them, a separate definition models the
cited utils code).  The HTML layer (BeautifulSoup) is abstracted to the data
the extractor actually reads from each table row: for each cell, its stripped
visible text, the stripped text of a nested `<font>` element (if any), and
the stripped texts of nested `<span>` elements; and for each row, the list of
values of its `class` attribute.  All text is modelled at the ASCII level the
scraped pages use (plus the two Turkish glyphs the code remaps); Python
`str.upper`, `str.strip`, `str.isdigit` and `\s`/`\d` in the regular
expressions are modelled on that character range.
-/

/-- Python `\s` / `str.strip()` whitespace, restricted to ASCII. -/
def isSpaceChar (c : Char) : Bool :=
  c = ' ' ∨ c = '\t' ∨ c = '\n' ∨ c = '\x0d' ∨ c = '\x0b' ∨ c = '\x0c'

/-- Python `str.strip()`: drop leading and trailing whitespace. -/
def pyStrip (s : String) : String :=
  ⟨((s.data.dropWhile isSpaceChar).reverse.dropWhile isSpaceChar).reverse⟩

/-- Python `str.upper()` on the ASCII letters that occur in course codes. -/
def pyUpper (s : String) : String :=
  ⟨s.data.map Char.toUpper⟩

/-- Value of a list of decimal digit characters. -/
def natOfDigits (cs : List Char) : Nat :=
  cs.foldl (fun a c => a * 10 + (c.toNat - 48)) 0

/-- Key normalization, scraper.py line 156:
`course_code_section.replace(' ', '').upper()`. -/
def normalizeCode (s : String) : String :=
  pyUpper ⟨s.data.filter (fun c => c ≠ ' ')⟩

/-- Credits decoding, scraper.py line 173:
`int(text) if text.isdigit() else 0`. -/
def parseCredits (s : String) : Nat :=
  if s.data ≠ [] ∧ s.data.all Char.isDigit then natOfDigits s.data else 0

/-- Decimal rational literal `intpart.fracpart`, the shape Python `float()`
accepts on the ECTS cells of these pages (digits with at most one point,
not both sides empty). -/
def parseDecimal? (cs : List Char) : Option ℚ :=
  match cs.splitOn '.' with
  | [a] =>
      if a ≠ [] ∧ a.all Char.isDigit then some (natOfDigits a) else none
  | [a, b] =>
      if (a.all Char.isDigit ∧ b.all Char.isDigit) ∧ (a ≠ [] ∨ b ≠ []) then
        some ((natOfDigits a : ℚ) + (natOfDigits b : ℚ) / ((10 : ℚ) ^ b.length))
      else none
  | _ => none

/-- ECTS decoding, scraper.py lines 174-177: replace `,` by `.`, parse as a
number, default `0.0` on empty text or parse failure. -/
def parseEcts (s : String) : ℚ :=
  if s = "" then 0
  else
    match parseDecimal? (s.data.map (fun c => if c = ',' then '.' else c)) with
    | some q => q
    | none => 0

/-- One step of `re.findall(r'Th|St|Su|[MTWF]', days_text)` (scraper.py
lines 182 and 296): at each position the alternatives are tried in order,
so the two-letter tokens win over `T`; a position matching nothing is
skipped. -/
def findDays : List Char → List String
  | [] => []
  | 'T' :: 'h' :: rest => "Th" :: findDays rest
  | 'S' :: 't' :: rest => "St" :: findDays rest
  | 'S' :: 'u' :: rest => "Su" :: findDays rest
  | c :: rest =>
      if c = 'M' ∨ c = 'T' ∨ c = 'W' ∨ c = 'F' then
        String.singleton c :: findDays rest
      else
        findDays rest

/-- Days decoding of the extractor: `re.findall(r'Th|St|Su|[MTWF]', s)`.
The `if days_text else []` guard on scraper.py line 182 is redundant
(`findall` of the empty string is already `[]`). -/
def findallDays (s : String) : List String :=
  findDays s.data

/-- One character of the hours loop, scraper.py lines 188-193: a decimal
digit whose value lies in 1..8 yields that slot number, everything else is
dropped. -/
def charSlot? (c : Char) : Option Nat :=
  if c.isDigit then
    let n := c.toNat - 48
    if 1 ≤ n ∧ n ≤ 8 then some n else none
  else none

/-- Hours decoding of the extractor, scraper.py lines 184-193 (and the
identical session copy, lines 298-307): scan the cell text character by
character keeping the digits 1..8, in order of appearance.  The scraper
never consults the slot legend here. -/
def extractSlots (s : String) : List Nat :=
  s.data.filterMap charSlot?

/-- Lookup in a slot-legend mapping modelled as an association list with
unique keys (Python `dict.get` / `in`). -/
def natLookup (ts : List (Nat × Nat)) (k : Nat) : Option Nat :=
  (ts.find? (fun p => p.1 == k)).map (fun p => p.2)

/-- Hours decoding of the never-called alternate extractor, utils.py lines
324-329: every decimal digit of the cell text is looked up in the legend;
digits missing from the legend are dropped, and nothing falls back to the
raw slot number.  With an empty legend the result is always empty. -/
def utilsResolveHours (s : String) (time_slots : List (Nat × Nat)) : List Nat :=
  if s = "" then []
  else (s.data.filter Char.isDigit).filterMap (fun c => natLookup time_slots (c.toNat - 48))

/-- The character replacements of `fix_room_text`, scraper.py lines 195-203:
remap the two mis-encoded Turkish glyphs. -/
def fixRoomText (s : String) : String :=
  ⟨s.data.map (fun c => if c = 'Ý' then 'İ' else if c = 'ý' then 'i' else c)⟩

/-- Python `re.split(r'[,|]', text)`: split at every comma or bar, keeping
empty pieces. -/
def splitSep : List Char → List (List Char)
  | [] => [[]]
  | c :: rest =>
      match splitSep rest with
      | [] => [[c]]
      | g :: gs => if c = ',' ∨ c = '|' then [] :: g :: gs else (c :: g) :: gs

/-- The plain-text rooms fallback, scraper.py line 217: split on comma or
bar, strip each piece, keep the non-empty ones after fixing Turkish
glyphs. -/
def splitRoomsText (s : String) : List String :=
  (splitSep s.data).filterMap (fun g =>
    let t := pyStrip ⟨g⟩
    if t = "" then none else some (fixRoomText t))

/-- What the extractor reads from one `<td>` cell: its stripped visible text
(`get_text(strip=True)`), the stripped text of a nested `<font>` element when
one exists, and the stripped texts of its nested `<span>` elements. -/
structure Cell where
  text : String
  fontText : Option String
  spanTexts : List String
deriving DecidableEq, Repr

/-- One `<tr>` of the schedule table: the values of its `class` attribute
and its `<td>` cells, in document order. -/
structure Row where
  classes : List String
  cells : List Cell
deriving DecidableEq, Repr

/-- Header indexing, scraper.py line 144: the Python dict comprehension
`{header: idx for idx, header in enumerate(headers)}` keeps the last index
of a repeated header label.  `none` models a label absent from the dict. -/
def hdrIdx? (headers : List String) (name : String) : Option Nat :=
  headers.enum.foldl (fun acc p => if p.2 = name then some p.1 else acc) none

/-- Python `header_indices.get(field, 0)` (scraper.py lines 154 and 206). -/
def hdrIdxD (headers : List String) (name : String) : Nat :=
  (hdrIdx? headers name).getD 0

/-- `safe_text_for_row`, scraper.py lines 161-167: the stripped text of the
cell at the field's column, or the empty string when the field is not a
known header or the row is too short. -/
def safeText (headers : List String) (cells : List Cell) (field : String) : String :=
  match hdrIdx? headers field with
  | none => ""
  | some i =>
      match cells[i]? with
      | some c => c.text
      | none => ""

/-- Course-code extraction, scraper.py lines 153-159: index the `Code.Sec`
column (an out-of-range index raises, is caught, and skips the row) and read
the text of the nested `<font>` element (a missing element raises, is
caught, and skips the row). -/
def extractCode (headers : List String) (cells : List Cell) : Option String :=
  match cells[hdrIdxD headers "Code.Sec"]? with
  | none => none
  | some c => c.fontText

/-- Rooms decoding, scraper.py lines 205-217 (and the identical session
copy, lines 309-317): prefer the fixed texts of nested `<span>` elements,
dropping empties and literal bar separators; otherwise split the cell's
plain text on comma or bar.  The cell index cannot be out of range on a row
whose code extraction succeeded, so the unreachable case returns `[]`. -/
def roomsOf (headers : List String) (cells : List Cell) : List String :=
  match cells[hdrIdxD headers "Rooms"]? with
  | none => []
  | some cell =>
      let spanRooms := cell.spanTexts.map fixRoomText
      if spanRooms ≠ [] then
        spanRooms.filter (fun r => r ≠ "" ∧ r ≠ "|")
      else if cell.text ≠ "" then splitRoomsText cell.text
      else []

/-- The tail `\s*\d*$` of the continuation-name pattern: optional
whitespace, then optional digits, then the end of the string. -/
def tailSpacesDigits (cs : List Char) : Bool :=
  (cs.dropWhile isSpaceChar).all Char.isDigit

/-- Python `re.match(r'^(LAB|P\.S\.|PS|REC)\s*\d*$', name)` (scraper.py
lines 221 and 285), returning the captured group on success.  The
alternatives are tried in order, so `P.S.` is tested before `PS`; the
alternatives exclude each other on every input, so an if-chain is
faithful. -/
def contMatch? (s : String) : Option String :=
  let cs := s.data
  if cs.take 3 = ['L', 'A', 'B'] ∧ tailSpacesDigits (cs.drop 3) then some "LAB"
  else if cs.take 4 = ['P', '.', 'S', '.'] ∧ tailSpacesDigits (cs.drop 4) then some "P.S."
  else if cs.take 2 = ['P', 'S'] ∧ tailSpacesDigits (cs.drop 2) then some "PS"
  else if cs.take 3 = ['R', 'E', 'C'] ∧ tailSpacesDigits (cs.drop 3) then some "REC"
  else none

/-- Session-type normalization, scraper.py lines 289-293: `PS` becomes
`P.S.` and `REC` becomes `LAB`. -/
def sessionTypeOf (g : String) : String :=
  if g = "PS" then "P.S." else if g = "REC" then "LAB" else g

/-- One emitted record (the serializable dict of scraper.py lines
228-237). -/
structure Record where
  code : String
  credits : Nat
  ects : ℚ
  instr : String
  name : String
  days : List String
  hours : List Nat
  rooms : List String
deriving DecidableEq, Repr

/-- Pad a list to length `n` by repeating its last element (scraper.py
lines 246-262): an empty list stays empty, a non-empty list is extended by
`n - length` copies of its last element. -/
def padTo (n : Nat) (xs : List α) : List α :=
  match xs.getLast? with
  | none => xs
  | some last => xs ++ List.replicate (n - xs.length) last

/-- Array reconciliation, scraper.py lines 239-262 (and the identical
session copy, lines 332-355): when at least one of the three sequences is
non-empty, pad each to the maximum of the three lengths; when all are
empty, change nothing. -/
def reconcileTriple (days : List String) (hours : List Nat) (rooms : List String) :
    List String × List Nat × List String :=
  if days ≠ [] ∨ hours ≠ [] ∨ rooms ≠ [] then
    let maxLen := max (max days.length hours.length) rooms.length
    (padTo maxLen days, padTo maxLen hours, padTo maxLen rooms)
  else (days, hours, rooms)

/-- Apply array reconciliation to a record's meeting pattern. -/
def reconcileRecord (r : Record) : Record :=
  let t := reconcileTriple r.days r.hours r.rooms
  { r with days := t.1, hours := t.2.1, rooms := t.2.2 }

/-- The output mapping: a Python dict from normalized keys to records,
modelled as an insertion-ordered association list whose keys are kept
unique by the two insertion operations below. -/
abbrev Courses := List (String × Record)

/-- Python `courses[key]` lookup. -/
def dictLookup (d : Courses) (k : String) : Option Record :=
  (d.find? (fun p => p.1 == k)).map (fun p => p.2)

/-- Python `key in courses`. -/
def dictContains (d : Courses) (k : String) : Bool :=
  d.any (fun p => p.1 == k)

/-- Python `courses[key] = obj` for a key known to be absent (the guarded
primary insertion, scraper.py lines 271-272): append at the end. -/
def dictInsert (d : Courses) (k : String) (v : Record) : Courses :=
  d ++ [(k, v)]

/-- Python `courses[key] = obj` with no absence guard (the session
insertion, scraper.py line 358): replace the value in place when the key is
present, else append. -/
def dictSet (d : Courses) (k : String) (v : Record) : Courses :=
  if d.any (fun p => p.1 == k) then
    d.map (fun p => if p.1 == k then (k, v) else p)
  else d ++ [(k, v)]

/-- A Python value, as far as the continuation-walk guard needs one: the
`class` attribute of a BeautifulSoup tag is either absent (`None`) or a
list of strings, and Python `in` compares it for equality against the
elements of the literal list. -/
inductive PyVal where
  | pynone : PyVal
  | pystr : String → PyVal
  | pystrlist : List String → PyVal
deriving DecidableEq

/-- Python `next_row.get('class')`: BeautifulSoup treats `class` as a
multi-valued attribute, so the result is the list of class strings, or
`None` when the attribute is absent (modelled here by an empty list). -/
def pyGetClass (r : Row) : PyVal :=
  if r.classes.isEmpty then PyVal.pynone else PyVal.pystrlist r.classes

/-- Python `v in [a, b]`: equality of `v` against each element. -/
def pyMem (v : PyVal) (l : List PyVal) : Bool :=
  l.any (fun x => x == v)

/-- The guard of the continuation-walk loop, scraper.py line 279:
`next_row and next_row.get('class') in ['schtd', 'schtd2']`.  The left
conjunct is row existence (the walk stops at the end of the table, handled
by the recursion below); the right conjunct compares the whole class *list*
(or `None`) for equality against the two strings, so it is false for every
row — a list never equals a string.  The session-building body of the loop
is therefore unreachable in the code as written. -/
def sessionWalkGuard (r : Row) : Bool :=
  pyMem (pyGetClass r) [PyVal.pystr "schtd", PyVal.pystr "schtd2"]

/-- The row filter of the outer loop, scraper.py line 147:
`find_all('tr', class_=lambda x: x in ['schtd', 'schtd2'])`.  BeautifulSoup
applies the callable to each class string of the tag separately (and to
`None` for a tag without the attribute), so this is an elementwise test. -/
def isDataRow (r : Row) : Bool :=
  r.classes.any (fun c => c = "schtd" ∨ c = "schtd2")

/-- The continuation walk, scraper.py lines 276-361, parameterized by the
loop guard so that the literal guard (`sessionWalkGuard`) and the intended
elementwise guard can be compared.  Starting from the rows following the
primary row, while the guard holds: a row shorter than the header count
breaks; a `Name` text not matching the continuation pattern breaks;
otherwise a session record is built from the row's own days/hours/rooms
(decoded and reconciled exactly like a primary row's), keyed
`<parent-key> <type> <counter>`, with zero credits and ECTS and the
parent's instructor, and the single counter advances by one. -/
def walkSessionsG (guard : Row → Bool) (headers : List String)
    (parentKey parentCode instructor parentName : String) :
    List Row → Nat → List (String × Record)
  | [], _ => []
  | next :: rest, counter =>
      if guard next then
        if next.cells.length < headers.length then []
        else
          match contMatch? (pyStrip (safeText headers next.cells "Name")) with
          | none => []
          | some g =>
              let sType := sessionTypeOf g
              let suffix := sType ++ " " ++ toString counter
              let sobj : Record := {
                code := parentCode ++ " " ++ suffix
                credits := 0
                ects := 0
                instr := instructor
                name := parentName ++ " " ++ suffix
                days := findallDays (safeText headers next.cells "Days")
                hours := extractSlots (safeText headers next.cells "Hours")
                rooms := roomsOf headers next.cells }
              (parentKey ++ " " ++ suffix, reconcileRecord sobj) ::
                walkSessionsG guard headers parentKey parentCode instructor parentName
                  rest (counter + 1)
      else []

/-- The primary record of one row before reconciliation, scraper.py lines
173-237. -/
def mkPrimary (headers : List String) (cells : List Cell) (codeSec : String) : Record :=
  { code := codeSec
    credits := parseCredits (safeText headers cells "Cr.")
    ects := parseEcts (safeText headers cells "Ects")
    instr := safeText headers cells "Instr."
    name := safeText headers cells "Name"
    days := findallDays (safeText headers cells "Days")
    hours := extractSlots (safeText headers cells "Hours")
    rooms := roomsOf headers cells }

/-- The body of the outer row loop, scraper.py lines 147-361, for one row
`row` whose following siblings are `rest`: skip non-data rows (they are not
iterated), rows shorter than the header count, rows without an extractable
code, and continuation-named rows; build and reconcile the primary record;
drop it when unscheduled and `include_unscheduled` is off; insert it only
if its key is new (a duplicate is logged and dropped); then run the
continuation walk and assign each session into the mapping unconditionally. -/
def stepRow (guard : Row → Bool) (include_unscheduled : Bool) (headers : List String)
    (courses : Courses) (row : Row) (rest : List Row) : Courses :=
  if ¬ isDataRow row then courses
  else if row.cells.length < headers.length then courses
  else
    match extractCode headers row.cells with
    | none => courses
    | some codeSec =>
        let key := normalizeCode codeSec
        if (contMatch? (pyStrip (safeText headers row.cells "Name"))).isSome then courses
        else
          let obj := reconcileRecord (mkPrimary headers row.cells codeSec)
          if include_unscheduled = false ∧ obj.days = [] ∧ obj.hours = [] ∧ obj.rooms = [] then
            courses
          else
            let courses1 := if dictContains courses key then courses else dictInsert courses key obj
            (walkSessionsG guard headers key codeSec obj.instr obj.name rest 1).foldl
              (fun d p => dictSet d p.1 p.2) courses1

/-- The outer row loop: fold `stepRow` over the rows in document order.
Each row sees the full list of its following siblings, exactly as
`find_next_sibling` does; rows consumed by a walk are reached again at top
level and skipped there by the continuation-name test. -/
def processRowsG (guard : Row → Bool) (include_unscheduled : Bool) (headers : List String) :
    Courses → List Row → Courses
  | courses, [] => courses
  | courses, row :: rest =>
      processRowsG guard include_unscheduled headers
        (stepRow guard include_unscheduled headers courses row rest) rest

/-- `CourseInfoScraper.extract_course_data`, scraper.py lines 124-363,
given the located schedule table as its header labels and its `<tr>` rows.
The `time_slots` parameter mirrors the Python signature and, exactly as in
the source, is never used: the scraper emits raw slot numbers. -/
def extract_course_data (headers : List String) (rows : List Row)
    (_time_slots : List (Nat × Nat)) (include_unscheduled : Bool) : Courses :=
  processRowsG sessionWalkGuard include_unscheduled headers [] rows

/-- Modelled from the spec (§4.2 steps 3 and 11): the same extractor with
the continuation-walk guard replaced by the intended data-row test — the
row's classes compared elementwise against `schtd`/`schtd2`, as the outer
loop already does.  This is the behavior the spec describes; it differs
from `extract_course_data` only in the walk guard. -/
def extract_course_data_intended (headers : List String) (rows : List Row)
    (_time_slots : List (Nat × Nat)) (include_unscheduled : Bool) : Courses :=
  processRowsG isDataRow include_unscheduled headers [] rows

/-- What the legend parser reads from one cell of the legend table: its
stripped text, whether its HTML contains a `<b>` element, whether it
carries a `colspan` attribute, and whether its class is `bodygray`
(utils.py lines 55-84). -/
structure LegendCell where
  text : String
  hasBold : Bool
  hasColspan : Bool
  isBodygray : Bool
deriving DecidableEq, Repr

/-- One `<tr>` of the legend table. -/
structure LegendRow where
  cells : List LegendCell
deriving DecidableEq, Repr

/-- Try `Slot\s*(\d+)` at the head of the text: the literal `Slot`,
optional whitespace, then at least one digit (taken greedily). -/
def matchSlotAt : List Char → Option Nat
  | 'S' :: 'l' :: 'o' :: 't' :: rest =>
      let ds := (rest.dropWhile isSpaceChar).takeWhile Char.isDigit
      if ds = [] then none else some (natOfDigits ds)
  | _ => none

/-- Python `re.search(r'Slot\s*(\d+)', text)` (utils.py line 87): the
leftmost position where the pattern matches. -/
def searchSlot : List Char → Option Nat
  | [] => none
  | c :: rest =>
      match matchSlotAt (c :: rest) with
      | some n => some n
      | none => searchSlot rest

/-- Try `:\s*(\d{2}):(\d{2})\s*-` at the head of the text; the captured
value is the two-digit hour. -/
def matchTimeAt : List Char → Option Nat
  | ':' :: rest =>
      match rest.dropWhile isSpaceChar with
      | a :: b :: ':' :: c :: d :: r2 =>
          if a.isDigit ∧ b.isDigit ∧ c.isDigit ∧ d.isDigit then
            match r2.dropWhile isSpaceChar with
            | '-' :: _ => some ((a.toNat - 48) * 10 + (b.toNat - 48))
            | _ => none
          else none
      | _ => none
  | _ => none

/-- Python `re.search(r':\s*(\d{2}):(\d{2})\s*-', text)` (utils.py line
96): the leftmost position where the pattern matches. -/
def searchTime : List Char → Option Nat
  | [] => none
  | c :: rest =>
      match matchTimeAt (c :: rest) with
      | some n => some n
      | none => searchTime rest

/-- Python `dict[k] = v` on the legend mapping (utils.py line 102). -/
def natDictSet (d : List (Nat × Nat)) (k v : Nat) : List (Nat × Nat) :=
  if d.any (fun p => p.1 == k) then
    d.map (fun p => if p.1 == k then (k, v) else p)
  else d ++ [(k, v)]

/-- Adjacent pairs at even offsets: `for i in range(0, len(cells), 2)`
with the `i + 1 >= len(cells)` break (utils.py lines 66-71). -/
def legendPairs : List LegendCell → List (LegendCell × LegendCell)
  | a :: b :: rest => (a, b) :: legendPairs rest
  | _ => []

/-- One legend row, utils.py lines 55-103: a row containing a cell with a
`colspan` attribute is skipped; otherwise the `bodygray` cells are paired
left to right, a pair is used only when the slot cell contains bold text
and both patterns match, and the mapping entry is assigned. -/
def legendRowStep (acc : List (Nat × Nat)) (row : LegendRow) : List (Nat × Nat) :=
  if row.cells.any (fun c => c.hasColspan) then acc
  else
    (legendPairs (row.cells.filter (fun c => c.isBodygray))).foldl
      (fun a p =>
        if p.1.hasBold then
          match searchSlot p.1.text.data with
          | none => a
          | some sn =>
              match searchTime p.2.text.data with
              | none => a
              | some hh => natDictSet a sn hh
        else a) acc

/-- `parse_time_slots`, utils.py lines 34-106, given the legend table when
the markup contains one (`soup.find('table', style='margin:20px 0')`):
absence of the table yields the empty mapping — the function never
fails. -/
def parse_time_slots (legend : Option (List LegendRow)) : List (Nat × Nat) :=
  match legend with
  | none => []
  | some lrows => lrows.foldl legendRowStep []

/-- The per-department page handling of `CourseInfoScraper.scrape`,
scraper.py lines 395-405, for one already-fetched page (its legend table,
if present, and its schedule table): the extractor runs only when
`parse_time_slots` produced a non-empty mapping; with an empty legend the
page is skipped with a warning and contributes no records. -/
def scrapePage (legend : Option (List LegendRow)) (headers : List String)
    (rows : List Row) (include_unscheduled : Bool) : Courses :=
  let time_slots := parse_time_slots legend
  if time_slots ≠ [] then extract_course_data headers rows time_slots include_unscheduled
  else []

/-- The header labels of the schedule table, in page order. -/
def stdHeaders : List String :=
  ["Code.Sec", "Name", "Cr.", "Ects", "Instr.", "Days", "Hours", "Rooms"]

/-- A cell with plain text only. -/
def mkCell (t : String) : Cell :=
  { text := t, fontText := none, spanTexts := [] }

/-- A primary schedule row for `CMPE 150.01`: three meetings on Monday,
Wednesday and Friday in slots 3-5, one room. -/
def primaryRow : Row :=
  { classes := ["schtd"]
    cells := [
      { text := "CMPE 150.01", fontText := some "CMPE 150.01", spanTexts := [] },
      mkCell "Intro to Computing", mkCell "3", mkCell "6", mkCell "Jane Doe",
      mkCell "MWF", mkCell "345", mkCell "NH101"] }

/-- A continuation row named `LAB` directly below the primary row. -/
def labRow : Row :=
  { classes := ["schtd2"]
    cells := [
      mkCell "", mkCell "LAB", mkCell "", mkCell "", mkCell "",
      mkCell "Th", mkCell "67", mkCell "LabRoom"] }

/-- A continuation row named `PS` directly below the `LAB` row. -/
def psRow : Row :=
  { classes := ["schtd"]
    cells := [
      mkCell "", mkCell "PS", mkCell "", mkCell "", mkCell "",
      mkCell "F", mkCell "8", mkCell ""] }

/-- A continuation row named `LAB` with no schedule information at all. -/
def emptyLabRow : Row :=
  { classes := ["schtd2"]
    cells := [
      mkCell "", mkCell "LAB", mkCell "", mkCell "", mkCell "",
      mkCell "", mkCell "", mkCell ""] }

/-- A primary row with a day but no hours and no rooms. -/
def dayOnlyRow : Row :=
  { classes := ["schtd"]
    cells := [
      { text := "PHYS 101.01", fontText := some "PHYS 101.01", spanTexts := [] },
      mkCell "Mechanics", mkCell "4", mkCell "6", mkCell "Ali Veli",
      mkCell "M", mkCell "", mkCell ""] }

/-- A well-formed row of the slot-legend table mapping slot 1 to hour 9. -/
def sampleLegendRow : LegendRow :=
  { cells := [
      { text := "Slot 1", hasBold := true, hasColspan := false, isBodygray := true },
      { text := ": 09:00 - 09:50", hasBold := false, hasColspan := false, isBodygray := true }] }

section Lemmas

lemma padTo_nil (n : Nat) : padTo n ([] : List α) = [] := rfl

lemma padTo_eq_of_ne_nil (xs : List α) (hx : xs ≠ []) (n : Nat) (d : α) :
    padTo n xs = xs ++ List.replicate (n - xs.length) (xs.getLastD d) := by
  unfold padTo
  cases hlast : xs.getLast? with
  | none => exact absurd (List.getLast?_eq_none_iff.mp hlast) hx
  | some l => simp [List.getLastD_eq_getLast?, hlast]

lemma padTo_eq_nil_iff (n : Nat) (xs : List α) : padTo n xs = [] ↔ xs = [] := by
  cases xs with
  | nil => simp [padTo]
  | cons a as =>
      rw [padTo_eq_of_ne_nil (a :: as) (by simp) n a]
      simp

lemma padTo_length (xs : List α) (hx : xs ≠ []) (n : Nat) (hn : xs.length ≤ n) :
    (padTo n xs).length = n := by
  cases xs with
  | nil => exact absurd rfl hx
  | cons a as =>
      rw [padTo_eq_of_ne_nil (a :: as) hx n a]
      simp only [List.length_append, List.length_replicate]
      omega

end Lemmas

/-- C3: array reconciliation.  When at least one of the three decoded
sequences is non-empty, each non-empty sequence is extended by copies of
its own last element up to the maximum of the three lengths, a sequence
that started empty stays empty, all three empty stay unchanged, and the
spec's example `days=["M"], hours=[9,10], rooms=[]` pads to
`(["M","M"], [9,10], [])`. -/
theorem c3_reconcile (d : List String) (h : List Nat) (r : List String)
    (hne : d ≠ [] ∨ h ≠ [] ∨ r ≠ []) :
    ((d = [] → (reconcileTriple d h r).1 = []) ∧
      (d ≠ [] → (reconcileTriple d h r).1 =
        d ++ List.replicate (max (max d.length h.length) r.length - d.length) (d.getLastD ""))) ∧
    ((h = [] → (reconcileTriple d h r).2.1 = []) ∧
      (h ≠ [] → (reconcileTriple d h r).2.1 =
        h ++ List.replicate (max (max d.length h.length) r.length - h.length) (h.getLastD 0))) ∧
    ((r = [] → (reconcileTriple d h r).2.2 = []) ∧
      (r ≠ [] → (reconcileTriple d h r).2.2 =
        r ++ List.replicate (max (max d.length h.length) r.length - r.length) (r.getLastD ""))) ∧
    reconcileTriple ([] : List String) [] [] = ([], [], []) ∧
    reconcileTriple ["M"] [9, 10] [] = (["M", "M"], [9, 10], []) := by
  have hsel : reconcileTriple d h r =
      (padTo (max (max d.length h.length) r.length) d,
        padTo (max (max d.length h.length) r.length) h,
        padTo (max (max d.length h.length) r.length) r) := by
    unfold reconcileTriple
    rw [if_pos hne]
  refine ⟨⟨?_, ?_⟩, ⟨?_, ?_⟩, ⟨?_, ?_⟩, by decide, by decide⟩
  · intro hd; subst hd; rw [hsel]; rfl
  · intro hd; rw [hsel]; exact padTo_eq_of_ne_nil d hd _ ""
  · intro hh; subst hh; rw [hsel]; rfl
  · intro hh; rw [hsel]; exact padTo_eq_of_ne_nil h hh _ 0
  · intro hr; subst hr; rw [hsel]; rfl
  · intro hr; rw [hsel]; exact padTo_eq_of_ne_nil r hr _ ""

/-- Witness for `c3_reconcile` at the spec's own example. -/
theorem c3_reconcile_witness : (reconcileTriple ["M"] [9, 10] []).1 = ["M", "M"] := by
  have h2 := (c3_reconcile ["M"] [9, 10] [] (Or.inl (by decide))).1.2 (by decide)
  rw [h2]; decide

/-- The record the extractor emits for `primaryRow`: rooms padded to the
three meetings by repeating the single room. -/
def primRecFull : Record :=
  { code := "CMPE 150.01", credits := 3, ects := 6, instr := "Jane Doe"
    name := "Intro to Computing", days := ["M", "W", "F"], hours := [3, 4, 5]
    rooms := ["NH101", "NH101", "NH101"] }

/-- C1, counterexample: the output record for a row with a day but no
hours and no rooms has days non-empty and hours/rooms empty — the three
sequences are neither all empty nor all of the same length, so the claimed
invariant fails on the output mapping. -/
theorem c1_counterexample :
    ¬ (∀ p ∈ extract_course_data stdHeaders [dayOnlyRow] [] false,
        (p.2.days = [] ∧ p.2.hours = [] ∧ p.2.rooms = []) ∨
        (p.2.days.length = p.2.hours.length ∧ p.2.hours.length = p.2.rooms.length)) := by
  decide

/-- C2, counterexample: with the non-empty legend mapping slots 3, 4, 5 to
hours 11, 13, 14, the extractor still emits the raw slot numbers `[3,4,5]`
rather than the resolved `[11,13,14]`; and the alternate utils.py decoding
with an empty legend yields `[]` rather than falling back to the raw
`[3,4,5]`. -/
theorem c2_counterexample :
    ¬ ((dictLookup (extract_course_data stdHeaders [primaryRow] [(3, 11), (4, 13), (5, 14)] false)
        "CMPE150.01").map Record.hours = some [11, 13, 14]) ∧
    ¬ (utilsResolveHours "345" [] = [3, 4, 5]) := by
  decide

/-- C2, amended: the operative extractor is independent of the legend (it
emits the raw slot numbers even for a non-empty legend), while the
never-called utils.py decoding always resolves through the legend, drops
slots missing from it (9 below), and yields nothing when the legend is
empty. -/
theorem c2_amended_behavior :
    (∀ (headers : List String) (rows : List Row) (ts ts2 : List (Nat × Nat)) (b : Bool),
      extract_course_data headers rows ts b = extract_course_data headers rows ts2 b) ∧
    (∀ s : String, utilsResolveHours s [] = []) ∧
    utilsResolveHours "159" [(1, 9), (5, 13)] = [9, 13] ∧
    (dictLookup (extract_course_data stdHeaders [primaryRow] [(3, 11), (4, 13), (5, 14)] false)
        "CMPE150.01").map Record.hours = some [3, 4, 5] := by
  refine ⟨fun _ _ _ _ _ => rfl, fun s => ?_, by decide, by decide⟩
  unfold utilsResolveHours natLookup
  split
  · rfl
  · simp

/-- C6: no session record is ever created by the code as written — the
walk guard compares the class list against strings — while the intended
elementwise guard yields exactly the claimed record `CMPE150.01 LAB 1`
with zero credits and ECTS, the parent's instructor, its own reconciled
arrays, and the parent record untouched. -/
theorem c6_lab_session :
    dictLookup (extract_course_data stdHeaders [primaryRow, labRow] [] false)
      "CMPE150.01 LAB 1" = none ∧
    (extract_course_data stdHeaders [primaryRow, labRow] [] false).map Prod.fst =
      ["CMPE150.01"] ∧
    dictLookup (extract_course_data_intended stdHeaders [primaryRow, labRow] [] false)
      "CMPE150.01 LAB 1" =
      some { code := "CMPE 150.01 LAB 1", credits := 0, ects := 0, instr := "Jane Doe"
             name := "Intro to Computing LAB 1", days := ["Th", "Th"], hours := [6, 7]
             rooms := ["LabRoom", "LabRoom"] } ∧
    dictLookup (extract_course_data_intended stdHeaders [primaryRow, labRow] [] false)
      "CMPE150.01" = some primRecFull := by
  decide

/-- C7, counterexample: a LAB row then a PS row after one primary row.  The
claim expects records keyed `CMPE150.01 LAB 1` and `CMPE150.01 P.S. 1`; the
code as written emits neither (no session is ever created). -/
theorem c7_counterexample :
    ¬ (dictContains (extract_course_data stdHeaders [primaryRow, labRow, psRow] [] false)
        "CMPE150.01 LAB 1" = true ∧
      dictContains (extract_course_data stdHeaders [primaryRow, labRow, psRow] [] false)
        "CMPE150.01 P.S. 1" = true) := by
  decide

/-- C7, amended: the code as written emits only the primary record; under
the intended walk guard the single per-primary counter numbers the LAB
session 1 and the PS session 2, never 1 and 1. -/
theorem c7_amended_sessions :
    (extract_course_data stdHeaders [primaryRow, labRow, psRow] [] false).map Prod.fst =
      ["CMPE150.01"] ∧
    (extract_course_data_intended stdHeaders [primaryRow, labRow, psRow] [] false).map Prod.fst =
      ["CMPE150.01", "CMPE150.01 LAB 1", "CMPE150.01 P.S. 2"] ∧
    dictContains (extract_course_data_intended stdHeaders [primaryRow, labRow, psRow] [] false)
      "CMPE150.01 P.S. 1" = false := by
  decide

/-- C9, counterexample: on a page whose legend table is absent, the scrape
step contributes nothing even though running the extractor on the same
schedule table would produce a record — the caller treats the empty legend
as fatal for the page, not as "hour enrichment unavailable". -/
theorem c9_counterexample :
    scrapePage none stdHeaders [primaryRow] false = [] ∧
    extract_course_data stdHeaders [primaryRow] [] false ≠ [] := by
  decide

/-- C9, amended: the legend parser returns the empty mapping (never an
error) when the legend table is absent, and parses a present table; but the
scrape caller runs the extractor only when the parsed legend is non-empty,
so a page with an absent or empty legend is skipped entirely. -/
theorem c9_amended_behavior :
    parse_time_slots none = [] ∧
    (∀ (headers : List String) (rows : List Row) (b : Bool),
      scrapePage none headers rows b = []) ∧
    parse_time_slots (some [sampleLegendRow]) = [(1, 9)] ∧
    (∀ (legend : Option (List LegendRow)) (headers : List String) (rows : List Row) (b : Bool),
      parse_time_slots legend ≠ [] →
        scrapePage legend headers rows b =
          extract_course_data headers rows (parse_time_slots legend) b) := by
  refine ⟨rfl, fun headers rows b => rfl, by decide, ?_⟩
  intro legend headers rows b hne
  unfold scrapePage
  rw [if_pos hne]

/-- Witness for `c9_amended_behavior` at a present one-row legend. -/
theorem c9_amended_behavior_witness :
    scrapePage (some [sampleLegendRow]) stdHeaders [primaryRow] false =
      extract_course_data stdHeaders [primaryRow] (parse_time_slots (some [sampleLegendRow])) false :=
  c9_amended_behavior.2.2.2 (some [sampleLegendRow]) stdHeaders [primaryRow] false (by decide)

/-- C10: with `include_unscheduled = false`, the code as written emits no
session record for an all-empty LAB continuation row (the walk is
unreachable); under the intended guard the session IS emitted with three
empty sequences — the entirely-empty drop of scraper.py lines 264-268 is
applied only to primary rows — while the scheduled parent is kept in both. -/
theorem c10_session_filter :
    dictLookup (extract_course_data stdHeaders [primaryRow, emptyLabRow] [] false)
      "CMPE150.01 LAB 1" = none ∧
    dictLookup (extract_course_data_intended stdHeaders [primaryRow, emptyLabRow] [] false)
      "CMPE150.01 LAB 1" =
      some { code := "CMPE 150.01 LAB 1", credits := 0, ects := 0, instr := "Jane Doe"
             name := "Intro to Computing LAB 1", days := [], hours := [], rooms := [] } ∧
    dictContains (extract_course_data_intended stdHeaders [primaryRow, emptyLabRow] [] false)
      "CMPE150.01" = true := by
  decide

/-- C4: the decoded slot numbers are exactly the decimal digits of the
hours-cell string whose value lies in 1..8, mapped to those values in
order of appearance; any other character is dropped, so `"159"` decodes to
`[1, 5]` and `"1a2 93"` to `[1, 2, 3]`. -/
theorem c4_hours_digits (s : String) :
    extractSlots s =
      (s.data.filter (fun c =>
        c.isDigit && decide (1 ≤ c.toNat - 48) && decide (c.toNat - 48 ≤ 8))).map
        (fun c => c.toNat - 48) ∧
    extractSlots "159" = [1, 5] ∧ extractSlots "1a2 93" = [1, 2, 3] := by
  refine ⟨?_, by decide, by decide⟩
  show s.data.filterMap charSlot? = _
  induction s.data with
  | nil => rfl
  | cons c cs ih =>
      rw [List.filterMap_cons, List.filter_cons]
      by_cases hd : c.isDigit
      · by_cases h18 : 1 ≤ c.toNat - 48 ∧ c.toNat - 48 ≤ 8
        · have h1 : charSlot? c = some (c.toNat - 48) := by
            simp [charSlot?, hd, h18.1, h18.2]
          have h2 : (c.isDigit && decide (1 ≤ c.toNat - 48) && decide (c.toNat - 48 ≤ 8)) = true := by
            simp [hd, h18.1, h18.2]
          rw [h1, h2, if_pos rfl, List.map_cons, ih]
        · have h1 : charSlot? c = none := by
            simp only [charSlot?, hd, if_true]
            rw [if_neg h18]
          have h2 : (c.isDigit && decide (1 ≤ c.toNat - 48) && decide (c.toNat - 48 ≤ 8)) = false := by
            rcases Decidable.not_and_iff_or_not.mp h18 with h | h <;> simp [hd, h]
          rw [h1, h2, if_neg (by simp), ih]
      · have h1 : charSlot? c = none := by simp [charSlot?, hd]
        have h2 : (c.isDigit && decide (1 ≤ c.toNat - 48) && decide (c.toNat - 48 ≤ 8)) = false := by
          simp [hd]
        rw [h1, h2, if_neg (by simp), ih]

lemma findDays_mem_tokens :
    ∀ cs : List Char, ∀ d ∈ findDays cs, d ∈ (["Th", "St", "Su", "M", "T", "W", "F"] : List String) := by
  intro cs
  induction cs using findDays.induct with
  | case1 => intro d hd; simp [findDays] at hd
  | case2 rest ih =>
      intro d hd
      rw [findDays] at hd
      rcases List.mem_cons.mp hd with h | h
      · simp [h]
      · exact ih d h
  | case3 rest ih =>
      intro d hd
      rw [findDays] at hd
      rcases List.mem_cons.mp hd with h | h
      · simp [h]
      · exact ih d h
  | case4 rest ih =>
      intro d hd
      rw [findDays] at hd
      rcases List.mem_cons.mp hd with h | h
      · simp [h]
      · exact ih d h
  | case5 c rest h1 h2 h3 hc ih =>
      intro d hd
      rw [findDays] at hd
      · rw [if_pos hc] at hd
        rcases List.mem_cons.mp hd with h | h
        · subst h
          rcases hc with h | h | h | h <;> subst h <;> decide
        · exact ih d h
      · exact h1
      · exact h2
      · exact h3
  | case6 c rest h1 h2 h3 hc ih =>
      intro d hd
      rw [findDays] at hd
      · rw [if_neg hc] at hd
        exact ih d hd
      · exact h1
      · exact h2
      · exact h3

/-- C8: day decoding scans with the two-letter tokens `Th`, `St`, `Su`
taking priority over the single letters at every position, keeps every
match in positional order including repeats, only ever produces tokens of
the fixed set, and decodes `"ThM"` to `["Th","M"]`, never
`["T","h","M"]`. -/
theorem c8_days :
    (∀ cs : List Char, findDays ('T' :: 'h' :: cs) = "Th" :: findDays cs) ∧
    (∀ cs : List Char, findDays ('S' :: 't' :: cs) = "St" :: findDays cs) ∧
    (∀ cs : List Char, findDays ('S' :: 'u' :: cs) = "Su" :: findDays cs) ∧
    (∀ s : String, ∀ d ∈ findallDays s, d ∈ (["Th", "St", "Su", "M", "T", "W", "F"] : List String)) ∧
    findallDays "ThM" = ["Th", "M"] ∧
    findallDays "ThM" ≠ ["T", "h", "M"] ∧
    findallDays "MThMTh" = ["M", "Th", "M", "Th"] := by
  exact ⟨fun cs => rfl, fun cs => rfl, fun cs => rfl,
    fun s => findDays_mem_tokens s.data, by decide, by decide, by decide⟩

/-- Witness for `c8_days`: the token-set conjunct applied at the decode of
`"ThM"`. -/
theorem c8_days_witness : ("Th" : String) ∈ (["Th", "St", "Su", "M", "T", "W", "F"] : List String) :=
  c8_days.2.2.2.1 "ThM" "Th" (by decide)

lemma sessionWalkGuard_false (r : Row) : sessionWalkGuard r = false := by
  unfold sessionWalkGuard pyMem pyGetClass
  split <;> simp

lemma walkSessions_dead (hs : List String) (pk pc i n : String) (rows : List Row) (ctr : Nat) :
    walkSessionsG sessionWalkGuard hs pk pc i n rows ctr = [] := by
  cases rows with
  | nil => rfl
  | cons r rest =>
      unfold walkSessionsG
      rw [sessionWalkGuard_false]
      simp

lemma dictLookup_insert_preserve (d : Courses) (k : String) (v : Record) (k2 : String)
    (v2 : Record) (h : dictLookup d k = some v) :
    dictLookup (dictInsert d k2 v2) k = some v := by
  unfold dictLookup dictInsert
  unfold dictLookup at h
  rw [List.find?_append]
  cases hf : d.find? (fun p => p.1 == k) with
  | none => rw [hf] at h; simp at h
  | some q => rw [hf] at h; simpa using h

lemma stepRow_preserves_lookup (b : Bool) (hs : List String) (st : Courses) (row : Row)
    (rest : List Row) (k : String) (v : Record) (hk : dictLookup st k = some v) :
    dictLookup (stepRow sessionWalkGuard b hs st row rest) k = some v := by
  unfold stepRow
  split
  · exact hk
  · split
    · exact hk
    · split
      · exact hk
      · split
        · exact hk
        · dsimp only
          split
          · exact hk
          · rw [walkSessions_dead]
            simp only [List.foldl_nil]
            split
            · exact hk
            · exact dictLookup_insert_preserve st k v _ _ hk

lemma processRows_preserves_lookup (b : Bool) (hs : List String) (rows : List Row) :
    ∀ (st : Courses) (k : String) (v : Record), dictLookup st k = some v →
      dictLookup (processRowsG sessionWalkGuard b hs st rows) k = some v := by
  induction rows with
  | nil => intro st k v hk; exact hk
  | cons row rest ih =>
      intro st k v hk
      exact ih _ k v (stepRow_preserves_lookup b hs st row rest k v hk)

/-- C5: once a key is bound in the output mapping, its record survives the
whole remaining extraction pass unchanged — primary duplicates are dropped
(first occurrence wins) and, in the code as written, the unconditional
session assignment of scraper.py line 358 is unreachable, so nothing ever
overwrites an inserted record.  The second conjunct identifies the loop
with `extract_course_data` started on the empty mapping. -/
theorem c5_no_overwrite (include_unscheduled : Bool) (headers : List String)
    (ts : List (Nat × Nat)) (st : Courses) (rows : List Row) (k : String) (v : Record)
    (hk : dictLookup st k = some v) :
    dictLookup (processRowsG sessionWalkGuard include_unscheduled headers st rows) k = some v ∧
    extract_course_data headers rows ts include_unscheduled =
      processRowsG sessionWalkGuard include_unscheduled headers [] rows :=
  ⟨processRows_preserves_lookup include_unscheduled headers rows st k v hk, rfl⟩

/-- Witness for `c5_no_overwrite`: a pre-existing binding survives the
processing of a primary row with a following LAB row. -/
theorem c5_no_overwrite_witness :
    dictLookup (processRowsG sessionWalkGuard false stdHeaders [("K", primRecFull)]
      [primaryRow, labRow]) "K" = some primRecFull :=
  (c5_no_overwrite false stdHeaders [] [("K", primRecFull)] [primaryRow, labRow] "K"
    primRecFull (by decide)).1

/-- Any two of the three sequences of a record that are both non-empty
have equal length. -/
def balancedRec (r : Record) : Prop :=
  (r.days ≠ [] → r.hours ≠ [] → r.days.length = r.hours.length) ∧
  (r.days ≠ [] → r.rooms ≠ [] → r.days.length = r.rooms.length) ∧
  (r.hours ≠ [] → r.rooms ≠ [] → r.hours.length = r.rooms.length)

lemma padTo_ne_nil_orig (n : Nat) (xs : List α) (h : padTo n xs ≠ []) : xs ≠ [] := by
  intro h0
  subst h0
  exact h rfl

lemma balanced_reconcileRecord (rc : Record) : balancedRec (reconcileRecord rc) := by
  unfold balancedRec reconcileRecord reconcileTriple
  by_cases hne : rc.days ≠ [] ∨ rc.hours ≠ [] ∨ rc.rooms ≠ []
  · rw [if_pos hne]
    dsimp only
    refine ⟨?_, ?_, ?_⟩ <;> intro hx hy
    · have hx2 := padTo_ne_nil_orig _ _ hx
      have hy2 := padTo_ne_nil_orig _ _ hy
      rw [padTo_length _ hx2 _ (by omega), padTo_length _ hy2 _ (by omega)]
    · have hx2 := padTo_ne_nil_orig _ _ hx
      have hy2 := padTo_ne_nil_orig _ _ hy
      rw [padTo_length _ hx2 _ (by omega), padTo_length _ hy2 _ (by omega)]
    · have hx2 := padTo_ne_nil_orig _ _ hx
      have hy2 := padTo_ne_nil_orig _ _ hy
      rw [padTo_length _ hx2 _ (by omega), padTo_length _ hy2 _ (by omega)]
  · rw [if_neg hne]
    push_neg at hne
    dsimp only
    refine ⟨?_, ?_, ?_⟩ <;> intro hx hy
    · exact absurd hne.1 hx
    · exact absurd hne.1 hx
    · exact absurd hne.2.1 hx

lemma mem_dictInsert {d : Courses} {k : String} {v : Record} {p : String × Record}
    (hp : p ∈ dictInsert d k v) : p ∈ d ∨ p = (k, v) := by
  unfold dictInsert at hp
  rcases List.mem_append.mp hp with h | h
  · exact Or.inl h
  · exact Or.inr (List.mem_singleton.mp h)

lemma mem_dictSet {d : Courses} {k : String} {v : Record} {p : String × Record}
    (hp : p ∈ dictSet d k v) : p ∈ d ∨ p.2 = v := by
  unfold dictSet at hp
  split at hp
  · rcases List.mem_map.mp hp with ⟨q, hq, heq⟩
    by_cases hqk : q.1 == k
    · rw [if_pos hqk] at heq
      right
      rw [← heq]
    · rw [if_neg hqk] at heq
      left
      rw [← heq]
      exact hq
  · rcases List.mem_append.mp hp with h | h
    · exact Or.inl h
    · right
      rw [List.mem_singleton.mp h]

lemma walkSessions_entries_balanced (g : Row → Bool) (hs : List String) (pk pc i n : String) :
    ∀ (rows : List Row) (ctr : Nat) (p : String × Record),
      p ∈ walkSessionsG g hs pk pc i n rows ctr → balancedRec p.2 := by
  intro rows
  induction rows with
  | nil =>
      intro ctr p hp
      simp [walkSessionsG] at hp
  | cons r rest ih =>
      intro ctr p hp
      unfold walkSessionsG at hp
      split at hp
      · split at hp
        · simp at hp
        · dsimp only at hp
          split at hp
          · simp at hp
          · rcases List.mem_cons.mp hp with h | h
            · rw [h]
              exact balanced_reconcileRecord _
            · exact ih _ p h
      · simp at hp

lemma foldl_dictSet_balanced :
    ∀ (entries : List (String × Record)) (st : Courses),
      (∀ p ∈ st, balancedRec p.2) → (∀ q ∈ entries, balancedRec q.2) →
      ∀ p ∈ entries.foldl (fun d q => dictSet d q.1 q.2) st, balancedRec p.2 := by
  intro entries
  induction entries with
  | nil =>
      intro st hst _ p hp
      exact hst p hp
  | cons e es ih =>
      intro st hst hq p hp
      simp only [List.foldl_cons] at hp
      refine ih (dictSet st e.1 e.2) ?_ (fun q hqe => hq q (List.mem_cons_of_mem e hqe)) p hp
      intro r hr
      rcases mem_dictSet hr with h | h
      · exact hst r h
      · rw [h]
        exact hq e (List.mem_cons_self e es)

lemma stepRow_balanced (g : Row → Bool) (b : Bool) (hs : List String) (st : Courses)
    (row : Row) (rest : List Row) (hst : ∀ p ∈ st, balancedRec p.2) :
    ∀ p ∈ stepRow g b hs st row rest, balancedRec p.2 := by
  unfold stepRow
  split
  · exact hst
  · split
    · exact hst
    · split
      · exact hst
      · split
        · exact hst
        · dsimp only
          split
          · exact hst
          · intro p hp
            refine foldl_dictSet_balanced _ _ ?_ ?_ p hp
            · intro q hq
              split at hq
              · exact hst q hq
              · rcases mem_dictInsert hq with h | h
                · exact hst q h
                · rw [h]
                  exact balanced_reconcileRecord _
            · intro q hq
              exact walkSessions_entries_balanced g hs _ _ _ _ rest 1 q hq

lemma processRows_balanced (g : Row → Bool) (b : Bool) (hs : List String) :
    ∀ (rows : List Row) (st : Courses), (∀ p ∈ st, balancedRec p.2) →
      ∀ p ∈ processRowsG g b hs st rows, balancedRec p.2 := by
  intro rows
  induction rows with
  | nil =>
      intro st hst p hp
      exact hst p hp
  | cons row rest ih =>
      intro st hst p hp
      exact ih (stepRow g b hs st row rest) (stepRow_balanced g b hs st row rest hst) p hp

/-- C1, amended: for every record in the output mapping, any two of its
days/hours/rooms sequences that are both non-empty have equal length (the
padding of step 9 equalizes the non-empty sequences); a sequence that
started empty stays empty, so records with some sequences empty and others
not do occur (see the counterexample). -/
theorem c1_nonempty_balanced (headers : List String) (rows : List Row)
    (ts : List (Nat × Nat)) (b : Bool) (k : String) (rec : Record)
    (hmem : (k, rec) ∈ extract_course_data headers rows ts b) :
    (rec.days ≠ [] → rec.hours ≠ [] → rec.days.length = rec.hours.length) ∧
    (rec.days ≠ [] → rec.rooms ≠ [] → rec.days.length = rec.rooms.length) ∧
    (rec.hours ≠ [] → rec.rooms ≠ [] → rec.hours.length = rec.rooms.length) :=
  processRows_balanced sessionWalkGuard b headers rows []
    (by intro p hp; simp at hp) (k, rec) hmem

/-- Witness for `c1_nonempty_balanced` on the record the extractor emits
for the sample primary row. -/
theorem c1_nonempty_balanced_witness :
    (("CMPE150.01", primRecFull) ∈ extract_course_data stdHeaders [primaryRow] [] false) ∧
    (primRecFull.days ≠ [] → primRecFull.hours ≠ [] →
      primRecFull.days.length = primRecFull.hours.length) := by
  refine ⟨by decide, ?_⟩
  exact (c1_nonempty_balanced stdHeaders [primaryRow] [] false "CMPE150.01" primRecFull
    (by decide)).1
